import Mathlib

/-!
Verification of the tool-calling orchestration core of `local-agent-toolkit`:
the per-reply tool dispatch loop and iteration bound of `OpenAIAgent` /
`OllamaAgent`, the streaming delta accumulator of
`OpenAIAgent.run_with_streaming`, the MCP process-protocol client
(`mcp_server/mcp_client.py`), and the conversation-serialization helper
(`helper/tool_call.py`).  Python dictionaries become structures with
optional fields, in-place list mutation becomes explicit state passing,
external collaborators (the model API, `json.loads`, the child process's
stdout) become function / list parameters, and code that may raise returns
`Except` / an error component instead.
-/

namespace LocalAgentToolkit

/-- Model of a Python runtime value, as far as the toolkit's serialization
and tool outputs need it: JSON primitives, lists, dicts, attribute-bearing
objects (anything with a `__dict__`, carrying its `str(...)` rendering),
and `blob` for a value that has neither a `__dict__` nor a native JSON
representation (e.g. a set or a socket), again carrying its `str(...)`
rendering. -/
inductive PyVal where
  | str (s : String)
  | int (n : Int)
  | bool (b : Bool)
  | pynone
  | list (items : List PyVal)
  | dict (fields : List (String × PyVal))
  | obj (attrs : List (String × PyVal)) (reprStr : String)
  | blob (reprStr : String)
deriving Repr

mutual
/-- Python `repr(...)` of a value, modelled just closely enough to be a
definite total rendering (exact CPython punctuation is not relied on by
any theorem). -/
def pyRepr : PyVal → String
  | PyVal.str s => "\x27" ++ s ++ "\x27"
  | PyVal.int n => toString n
  | PyVal.bool b => if b then "True" else "False"
  | PyVal.pynone => "None"
  | PyVal.list items => "[" ++ String.intercalate ", " (pyReprItems items) ++ "]"
  | PyVal.dict fields => "\x7b" ++ String.intercalate ", " (pyReprFields fields) ++ "\x7d"
  | PyVal.obj _ r => r
  | PyVal.blob r => r

def pyReprItems : List PyVal → List String
  | [] => []
  | v :: rest => pyRepr v :: pyReprItems rest

def pyReprFields : List (String × PyVal) → List String
  | [] => []
  | (k, v) :: rest => ("\x27" ++ k ++ "\x27: " ++ pyRepr v) :: pyReprFields rest
end

/-- Python `str(...)`: the string itself for strings, `repr` otherwise. -/
def pyStr : PyVal → String
  | PyVal.str s => s
  | v => pyRepr v

mutual
/-- The helper `make_serializable` (helper/tool_call.py lines 71-90): dicts and lists
recurse; an object with a `__dict__` becomes the dict of its attributes,
recursively converted; JSON primitives survive the `json.dumps` probe and
are returned as-is; anything else fails the probe and is degraded to its
`str(...)` form.  (The `to_dict` branch is shadowed by the `__dict__`
branch for every ordinary object and is not separately modelled.) -/
def make_serializable : PyVal → PyVal
  | PyVal.dict fields => PyVal.dict (serializeFields fields)
  | PyVal.list items => PyVal.list (serializeItems items)
  | PyVal.obj attrs _ => PyVal.dict (serializeFields attrs)
  | PyVal.str s => PyVal.str s
  | PyVal.int n => PyVal.int n
  | PyVal.bool b => PyVal.bool b
  | PyVal.pynone => PyVal.pynone
  | PyVal.blob r => PyVal.str (pyStr (PyVal.blob r))

def serializeFields : List (String × PyVal) → List (String × PyVal)
  | [] => []
  | (k, v) :: rest => (k, make_serializable v) :: serializeFields rest

def serializeItems : List PyVal → List PyVal
  | [] => []
  | v :: rest => make_serializable v :: serializeItems rest
end

mutual
/-- A value `json.dumps` accepts without a custom encoder: primitives, and
lists / dicts all of whose members it accepts. -/
def isJsonSerializable : PyVal → Bool
  | PyVal.str _ => true
  | PyVal.int _ => true
  | PyVal.bool _ => true
  | PyVal.pynone => true
  | PyVal.list items => itemsSerializable items
  | PyVal.dict fields => fieldsSerializable fields
  | PyVal.obj _ _ => false
  | PyVal.blob _ => false

def itemsSerializable : List PyVal → Bool
  | [] => true
  | v :: rest => isJsonSerializable v && itemsSerializable rest

def fieldsSerializable : List (String × PyVal) → Bool
  | [] => true
  | (_, v) :: rest => isJsonSerializable v && fieldsSerializable rest
end

/-- Dictionary key probe, first binding wins (model of `d[key]`). -/
def pyLookup (key : String) : PyVal → Option PyVal
  | PyVal.dict fields => fields.lookup key
  | _ => none

/-- A conversation-history entry as a raw Python dict with a `role` and a
`content` field, the shape `run_agent_with_question` persists. -/
def msgDict (role : String) (content : PyVal) : PyVal :=
  PyVal.dict [("role", PyVal.str role), ("content", content)]

/-- Keyword-argument mapping handed to a tool callable: the result of
`json.loads` on an OpenAI argument string, or Ollama's already-structured
`arguments` mapping. -/
abbrev Args := List (String × PyVal)

/-- Outcome of invoking a tool callable: a returned value, or a raised
exception carried as its rendered message (the callable may signal failure
only by raising). -/
inductive ToolOutcome where
  | ok (result : PyVal)
  | exn (msg : String)

/-- The registry `self.tool_callables`: the registry mapping a tool name to its
callable, `none` when the name is absent from the dict. -/
abbrev Registry := String → Option (Args → ToolOutcome)

/-- Model of `json.loads` on an argument string, as a collaborator: `Except.error`
models the `JSONDecodeError` it raises on invalid JSON, carrying the
exception's message. -/
abbrev JsonParse := String → Except String Args

/-- One tool-call request as the OpenAI-dialect agent stores it: vendor
correlation id, function name, and the JSON-encoded argument string
(`tool_call.id`, `tool_call.function.name`,
`tool_call.function.arguments`). -/
structure ToolCall where
  id : String
  name : String
  arguments : String
deriving Repr, DecidableEq

/-- One tool-call request in the Ollama dialect: no id, and the arguments
arrive as an already-parsed mapping. -/
structure OllamaToolCall where
  name : String
  arguments : Args

/-- One conversation-history entry (a Python dict in the source); `none`
models an absent key.  OpenAI-dialect assistant messages carry
`tool_calls`, Ollama-dialect ones carry `ollama_tool_calls`; a tool-role
reply is correlated by `tool_call_id` (OpenAI) or by `name` (Ollama). -/
structure Message where
  role : String
  content : Option String := none
  tool_calls : Option (List ToolCall) := none
  ollama_tool_calls : Option (List OllamaToolCall) := none
  tool_call_id : Option String := none
  name : Option String := none

/-- Number of messages in `hist` whose `role` field equals `r`. -/
def countRole (r : String) (hist : List Message) : Nat :=
  (hist.filter (fun m => m.role == r)).length

/-- The iteration-exhaustion sentinel returned by `OpenAIAgent.run`
(line 147) and `OllamaAgent.run` (line 77), identical in both. -/
def sentinel : String :=
  "The agent could not complete the task within the maximum number of iterations."

namespace OpenAIAgent

/-- A finished model reply (`completion.choices[0].message`):
`tool_calls = none` models the attribute being `None`. -/
structure Reply where
  role : String
  content : Option String
  tool_calls : Option (List ToolCall)

/-- The reply's tool-call list under Python truthiness: `None` and `[]`
behave alike. -/
def tcList (r : Reply) : List ToolCall :=
  r.tool_calls.getD []

/-- The assistant message appended for a reply (lines 94-104): the
stored `tool_calls` value is `[...] if message.tool_calls else None`, so
an empty or absent list is normalized to `None`. -/
def assistantMsg (r : Reply) : Message :=
  { role := r.role
    content := r.content
    tool_calls := match r.tool_calls with
      | some (tc :: tcs) => some (tc :: tcs)
      | _ => none }

/-- The tool message appended when the requested name is absent from
`self.tool_callables` (lines 113-122). -/
def notFoundMsg (tc : ToolCall) : Message :=
  { role := "tool"
    content := some ("Error: Tool \x27" ++ tc.name ++ "\x27 not found.")
    tool_call_id := some tc.id }

/-- Dispatch of one request whose argument string already parsed
(lines 113-142): registry miss, successful call (content is
`str(tool_output)`), or caught callable exception. -/
def dispatchOne (callables : Registry) (tc : ToolCall) (args : Args) : Message :=
  match callables tc.name with
  | none => notFoundMsg tc
  | some f =>
    match f args with
    | ToolOutcome.ok out =>
        { role := "tool", content := some (pyStr out), tool_call_id := some tc.id }
    | ToolOutcome.exn e =>
        { role := "tool"
          content := some ("Error executing tool \x27" ++ tc.name ++ "\x27: " ++ e)
          tool_call_id := some tc.id }

/-- The per-reply dispatch loop (lines 109-142).  `json.loads` runs on
each request before the registry lookup and OUTSIDE the inner try/except,
so a parse failure raises out of the loop: the returned pair is the list
of tool messages appended before the failure and, in the second
component, the propagating exception message (`none` when the whole list
dispatched). -/
def dispatchCalls (callables : Registry) (parse : JsonParse) :
    List ToolCall → List Message × Option String
  | [] => ([], none)
  | tc :: rest =>
    match parse tc.arguments with
    | Except.error e => ([], some e)
    | Except.ok args =>
      (dispatchOne callables tc args :: (dispatchCalls callables parse rest).1,
       (dispatchCalls callables parse rest).2)

/-- The model-call collaborator
(`self.client.chat.completions.create`): `Except.error` models a raised
API exception, carrying its rendered message. -/
abbrev ModelCall := List Message → Except String Reply

/-- The `for i in range(int(max_iterations))` loop of `run`
(lines 81-147), by remaining iterations: a model exception and a
propagated argument-parse exception both hit the per-iteration handler,
which returns the "API error" string; a reply without tool calls is
terminal with `message.content or ""`. -/
def runIters (model : ModelCall) (callables : Registry) (parse : JsonParse) :
    Nat → List Message → String × List Message
  | 0, hist => (sentinel, hist)
  | n + 1, hist =>
    match model hist with
    | Except.error e => ("API error: " ++ e, hist)
    | Except.ok r =>
      let hist2 := hist ++ [assistantMsg r]
      if tcList r = [] then
        (r.content.getD "", hist2)
      else
        match dispatchCalls callables parse (tcList r) with
        | (msgs, some e) => ("API error: " ++ e, hist2 ++ msgs)
        | (msgs, none) => runIters model callables parse n (hist2 ++ msgs)

/-- The method `OpenAIAgent.run` (lines 60-147): append the user message to the
current history, then iterate. -/
def run (model : ModelCall) (callables : Registry) (parse : JsonParse)
    (max_iterations : Nat) (user_prompt : String) (init : List Message) :
    String × List Message :=
  runIters model callables parse max_iterations
    (init ++ [{ role := "user", content := some user_prompt }])

end OpenAIAgent

namespace OllamaAgent

/-- A complete Ollama chat reply's `message` dict; `tool_calls = none`
models the key being absent. -/
structure OllamaReply where
  role : String
  content : String
  tool_calls : Option (List OllamaToolCall)

/-- The reply message dict entry for tool_calls, read with `.get` under
Python truthiness. -/
def tcList (r : OllamaReply) : List OllamaToolCall :=
  r.tool_calls.getD []

/-- The response message appended to history verbatim (line 43). -/
def replyMsg (r : OllamaReply) : Message :=
  { role := r.role
    content := some r.content
    ollama_tool_calls := r.tool_calls }

/-- The tool message produced for a registry miss (lines 50-57),
correlated by `name` in this dialect. -/
def ollamaNotFound (tc : OllamaToolCall) : Message :=
  { role := "tool"
    content := some ("Error: Tool \x27" ++ tc.name ++ "\x27 not found.")
    name := some tc.name }

/-- The per-reply dispatch loop of `OllamaAgent.run` (lines 47-73): the
arguments are already structured, so there is no parse step and every
request yields exactly one tool message. -/
def dispatchOllama (callables : Registry) : List OllamaToolCall → List Message
  | [] => []
  | tc :: rest =>
    let msg :=
      match callables tc.name with
      | none => ollamaNotFound tc
      | some f =>
        match f tc.arguments with
        | ToolOutcome.ok out =>
            { role := "tool", content := some (pyStr out), name := some tc.name }
        | ToolOutcome.exn e =>
            { role := "tool"
              content := some ("Error executing tool \x27" ++ tc.name ++ "\x27: " ++ e)
              name := some tc.name }
    msg :: dispatchOllama callables rest

/-- The model collaborator (`self.client.chat`): `none` models a response
with a missing or empty `message`. -/
abbrev OllamaModel := List Message → Option OllamaReply

/-- The string returned on an empty model response (line 76). -/
def emptyResponseMsg : String :=
  "The agent received an empty response from the model."

/-- The loop of `OllamaAgent.run` (lines 35-77), by remaining
iterations. -/
def runIters (model : OllamaModel) (callables : Registry) :
    Nat → List Message → String × List Message
  | 0, hist => (sentinel, hist)
  | n + 1, hist =>
    match model hist with
    | none => (emptyResponseMsg, hist)
    | some r =>
      let hist2 := hist ++ [replyMsg r]
      if (tcList r).isEmpty then
        (r.content, hist2)
      else
        runIters model callables n (hist2 ++ dispatchOllama callables (tcList r))

/-- The method `OllamaAgent.run` (lines 33-77). -/
def run (model : OllamaModel) (callables : Registry)
    (max_iterations : Nat) (user_prompt : String) (init : List Message) :
    String × List Message :=
  runIters model callables max_iterations
    (init ++ [{ role := "user", content := some user_prompt }])

end OllamaAgent

namespace OpenAIAgent

/-- One tool-call fragment of a streaming delta
(`chunk.choices[0].delta.tool_calls[k]` in `run_with_streaming`).  The
code tests each carried value for Python truthiness, under which `None`
and `""` behave alike, and a `None` `function` attribute carries neither
name nor arguments; all three are therefore modelled as strings with `""`
for "absent". -/
structure ToolCallDelta where
  index : Nat
  id : String := ""
  name : String := ""
  arguments : String := ""
deriving Repr, DecidableEq

/-- The placeholder slot appended while
`len(tool_calls) <= tool_call_delta.index` (lines 203-210); the constant
`"type": "function"` key is not modelled. -/
def emptySlot : ToolCall := { id := "", name := "", arguments := "" }

/-- Update one slot with one of its fragments (lines 212-224): overwrite
`id` and `name` only when the fragment carries non-empty ones, append the
fragment's argument chunk. -/
def updSlot (s : ToolCall) (d : ToolCallDelta) : ToolCall :=
  { id := if d.id = "" then s.id else d.id
    name := if d.name = "" then s.name else d.name
    arguments := s.arguments ++ d.arguments }

/-- Merge one fragment into the slot list (lines 203-224): allocate
placeholder slots up through the fragment's index
(`while len(tool_calls) <= tool_call_delta.index`), then update the slot
at the fragment's index in place. -/
def applyDelta (slots : List ToolCall) (d : ToolCallDelta) : List ToolCall :=
  (slots ++ List.replicate (d.index + 1 - slots.length) emptySlot).set d.index
    (updSlot
      ((slots ++ List.replicate (d.index + 1 - slots.length) emptySlot).getD
        d.index emptySlot)
      d)

/-- One streamed chunk's delta (`chunk.choices[0].delta`): an optional
content fragment (the code tests `is not None`), a role marker (truthy
test, so `""` models "absent"), and zero or more tool-call fragments. -/
structure StreamChunk where
  content : Option String := none
  role : String := ""
  tool_calls : List ToolCallDelta := []
deriving Repr, DecidableEq

/-- The accumulator variables of the streaming loop (lines 185-187). -/
structure AccState where
  full_content : String
  tool_calls : List ToolCall
  role : String
deriving Repr, DecidableEq

/-- One pass of the `for chunk in completion` body (lines 189-227) over
the accumulator state. -/
def stepChunk (st : AccState) (c : StreamChunk) : AccState :=
  { full_content := st.full_content ++ c.content.getD ""
    tool_calls := c.tool_calls.foldl applyDelta st.tool_calls
    role := if c.role = "" then st.role else c.role }

/-- The state after consuming the whole stream, from the initial
`full_content = ""`, `tool_calls = []`,
`current_message = {"role": "assistant", ...}`. -/
def accumState (chunks : List StreamChunk) : AccState :=
  chunks.foldl stepChunk { full_content := "", tool_calls := [], role := "assistant" }

/-- The finished assistant message assembled after the stream ends
(lines 229-235): `tool_calls` is stored only when non-empty. -/
def accumMessage (chunks : List StreamChunk) : Message :=
  let st := accumState chunks
  { role := st.role
    content := some st.full_content
    tool_calls := match st.tool_calls with
      | [] => none
      | tc :: tcs => some (tc :: tcs) }

/-- All tool-call fragments of a stream, in arrival order. -/
def allFrags (chunks : List StreamChunk) : List ToolCallDelta :=
  (chunks.map StreamChunk.tool_calls).flatten

/-- The fragments addressed to slot `i`, in arrival order. -/
def fragsAt (i : Nat) (frags : List ToolCallDelta) : List ToolCallDelta :=
  frags.filter (fun f => f.index == i)

/-- The last non-empty string of the list, or the default when every
entry is empty. -/
def lastNonEmptyD (d : String) (l : List String) : String :=
  l.foldl (fun acc s => if s = "" then acc else s) d

/-- Specification view: the id a slot should end with — the last
non-empty fragment id for its index. -/
def idAt (i : Nat) (frags : List ToolCallDelta) : String :=
  lastNonEmptyD "" ((fragsAt i frags).map ToolCallDelta.id)

/-- Specification view: the last non-empty fragment name for the index. -/
def nameAt (i : Nat) (frags : List ToolCallDelta) : String :=
  lastNonEmptyD "" ((fragsAt i frags).map ToolCallDelta.name)

/-- Concatenation of a list of strings, in order. -/
def strConcat : List String → String
  | [] => ""
  | s :: rest => s ++ strConcat rest

/-- Specification view: the concatenation, in arrival order, of the
argument chunks addressed to the index. -/
def argsAt (i : Nat) (frags : List ToolCallDelta) : String :=
  strConcat ((fragsAt i frags).map ToolCallDelta.arguments)

/-- The largest fragment index of the stream. -/
def maxIndex (frags : List ToolCallDelta) : Nat :=
  frags.foldr (fun f m => max f.index m) 0

end OpenAIAgent

namespace MCPClient

/-- An MCP tool descriptor as `tools/list` returns it (only the name
matters to the catalogue bookkeeping the claims concern). -/
structure MCPToolDef where
  name : String
deriving Repr, DecidableEq

/-- One element of a `tools/call` response's `result.content` array. -/
structure ContentItem where
  type : String
  text : String
deriving Repr, DecidableEq

/-- The `result` object of a parsed JSON-RPC response: the optional keys
the client probes (`"tools"`, `"content"`), plus the `str(...)` rendering
used when `"content"` is absent. -/
structure RpcResult where
  tools : Option (List MCPToolDef) := none
  content : Option (List ContentItem) := none
  rendered : String := ""
deriving Repr, DecidableEq

/-- A parsed JSON-RPC response line; `none` fields model absent keys
(`"error" in response`, `"result" in response`). -/
structure RpcResp where
  error : Option String := none
  result : Option RpcResult := none
deriving Repr, DecidableEq

/-- Catalogue entry recorded by `_get_tools` (lines 172-179). -/
structure ToolInfo where
  server : String
  original_name : String
deriving Repr, DecidableEq

/-- The mutable state of `MCPClient`: the configured server names
(`self.servers`), the servers with a live child process
(`self.processes`), and the combined namespaced catalogue (`self.tools`,
in insertion order). -/
structure ClientState where
  servers : List String
  processes : List String
  tools : List (String × ToolInfo)
deriving Repr, DecidableEq

/-- One observable action on a server connection: a written request line
(`id = none` for a notification) or a response line read. -/
inductive Ev where
  | send (id : Option Nat) (method : String)
  | recv (r : RpcResp)
deriving Repr, DecidableEq

/-- The `initialize` request line (id 1, lines 104-121). -/
def initReq : Ev := Ev.send (some 1) "initialize"

/-- The `notifications/initialized` notification (no id, lines 138-145). -/
def initializedNotif : Ev := Ev.send none "notifications/initialized"

/-- The `tools/list` request line (id 2, lines 157-161). -/
def toolsListReq : Ev := Ev.send (some 2) "tools/list"

/-- The method `_get_tools` (lines 153-185) as a function of the server's remaining
response lines: the I/O trace plus the namespaced catalogue entries
registered.  An empty queue models `readline` yielding nothing (the
`json.loads` failure is caught and logged, registering no tools); a
response without `result.tools` registers none either. -/
def getTools (server_name : String) (resps : List RpcResp) :
    List Ev × List (String × ToolInfo) :=
  match resps with
  | [] => ([toolsListReq], [])
  | r :: _ =>
    ([toolsListReq, Ev.recv r],
      match r.result with
      | none => []
      | some res =>
        match res.tools with
        | none => []
        | some ts =>
          ts.map (fun t =>
            (server_name ++ "_" ++ t.name,
             { server := server_name, original_name := t.name })))

/-- The method `_initialize_server` (lines 99-151) followed by its `_get_tools`
call: send `initialize`, read one line, stop on an error field (or a
failed read, both caught in the function's own handler), otherwise send
the `initialized` notification and run `_get_tools` on the remaining
queue. -/
def handshake (server_name : String) (resps : List RpcResp) :
    List Ev × List (String × ToolInfo) :=
  match resps with
  | [] => ([initReq], [])
  | r :: rest =>
    if r.error.isSome then
      ([initReq, Ev.recv r], [])
    else
      (initReq :: Ev.recv r :: initializedNotif :: (getTools server_name rest).1,
       (getTools server_name rest).2)

/-- The method `start_server` (lines 56-97): fail on an unknown name or a failed
spawn (`spawn_ok` models `create_subprocess_exec` raising); otherwise
record the process, run the handshake — whose own failures are swallowed
inside `_initialize_server` — merge the discovered tools into the
catalogue, and report success. -/
def start_server (st : ClientState) (server_name : String) (spawn_ok : Bool)
    (resps : List RpcResp) : Bool × ClientState :=
  if server_name ∈ st.servers then
    if spawn_ok then
      (true,
       { st with
         processes := st.processes ++ [server_name]
         tools := st.tools ++ (handshake server_name resps).2 })
    else (false, st)
  else (false, st)

/-- The `str(e)` of the exception caught when no `tools/call` response
line can be read (modelled; the claims never inspect it). -/
def readFailureMsg : String := "response line could not be read"

/-- The method `call_tool` (lines 187-245): catalogue miss and dead-server checks
return fixed error strings before any I/O; otherwise one request is
written and one response line read, and every response shape (including
the caught read failure) is rendered to a result string.  Returns the
result and the I/O trace performed. -/
def call_tool (st : ClientState) (tool_name : String) (resps : List RpcResp) :
    String × List Ev :=
  match st.tools.lookup tool_name with
  | none => ("Error: Tool \x27" ++ tool_name ++ "\x27 not found", [])
  | some info =>
    if info.server ∈ st.processes then
      match resps with
      | [] => ("Error calling tool: " ++ readFailureMsg, [Ev.send (some 3) "tools/call"])
      | r :: _ =>
        (match r.result with
         | some res =>
           match res.content with
           | some items =>
             String.intercalate "\n"
               ((items.filter (fun it => it.type == "text")).map ContentItem.text)
           | none => res.rendered
         | none =>
           match r.error with
           | some m => "Tool error: " ++ m
           | none => "Unknown response format",
         [Ev.send (some 3) "tools/call", Ev.recv r])
    else ("Error: Server \x27" ++ info.server ++ "\x27 not running", [])

/-- The method `stop_server` (lines 275-310) on the state model: drop the process
handle and every catalogue entry contributed by the server (the
terminate-then-kill machinery acts on the process, not on this state);
stopping a non-running server is a no-op. -/
def stop_server (st : ClientState) (server_name : String) : ClientState :=
  if server_name ∈ st.processes then
    { st with
      processes := st.processes.filter (fun n => n != server_name)
      tools := st.tools.filter (fun p => p.2.server != server_name) }
  else st

/-- One `tools/call` wire exchange (id 3) given the remaining response
queue: its trace and the queue left over. -/
def callExchange (resps : List RpcResp) : List Ev × List RpcResp :=
  match resps with
  | [] => ([Ev.send (some 3) "tools/call"], [])
  | r :: rest => ([Ev.send (some 3) "tools/call", Ev.recv r], rest)

/-- A run of `n` serialized `tools/call` exchanges. -/
def callExchanges : Nat → List RpcResp → List Ev
  | 0, _ => []
  | n + 1, resps =>
    (callExchange resps).1 ++ callExchanges n (callExchange resps).2

/-- The response lines left unconsumed by the handshake. -/
def handshakeRest (resps : List RpcResp) : List RpcResp :=
  match resps with
  | [] => []
  | r :: rest =>
    if r.error.isSome then rest
    else
      match rest with
      | [] => []
      | _ :: rest2 => rest2

/-- The full I/O trace of one server connection: the handshake followed
by `ncalls` serialized `tools/call` exchanges. -/
def sessionTrace (server_name : String) (resps : List RpcResp) (ncalls : Nat) :
    List Ev :=
  (handshake server_name resps).1 ++ callExchanges ncalls (handshakeRest resps)

/-- The ids of the requests of a trace, in the order they were written
(notifications carry no id). -/
def requestIds (tr : List Ev) : List Nat :=
  tr.filterMap (fun e =>
    match e with
    | Ev.send i _ => i
    | Ev.recv _ => none)

/-- Scans a trace checking strict one-in-one-out request/response
alternation: a request may be written only when no response is
outstanding, and a response line may be read only when one is; a
notification changes nothing. -/
def serialOk : Bool → List Ev → Bool
  | _, [] => true
  | outstanding, Ev.send (some _) _ :: rest => !outstanding && serialOk true rest
  | outstanding, Ev.send none _ :: rest => serialOk outstanding rest
  | outstanding, Ev.recv _ :: rest => outstanding && serialOk false rest

end MCPClient

/-! ## Serialization (helper/tool_call.py) -/

mutual
theorem make_serializable_isJson : ∀ v : PyVal, isJsonSerializable (make_serializable v) = true
  | PyVal.dict fields => by
      simp only [make_serializable, isJsonSerializable]
      exact serializeFields_isJson fields
  | PyVal.list items => by
      simp only [make_serializable, isJsonSerializable]
      exact serializeItems_isJson items
  | PyVal.obj attrs r => by
      simp only [make_serializable, isJsonSerializable]
      exact serializeFields_isJson attrs
  | PyVal.str s => rfl
  | PyVal.int n => rfl
  | PyVal.bool b => rfl
  | PyVal.pynone => rfl
  | PyVal.blob r => rfl

theorem serializeFields_isJson : ∀ l, fieldsSerializable (serializeFields l) = true
  | [] => rfl
  | (k, v) :: rest => by
      simp only [serializeFields, fieldsSerializable, Bool.and_eq_true]
      exact ⟨make_serializable_isJson v, serializeFields_isJson rest⟩

theorem serializeItems_isJson : ∀ l, itemsSerializable (serializeItems l) = true
  | [] => rfl
  | v :: rest => by
      simp only [serializeItems, itemsSerializable, Bool.and_eq_true]
      exact ⟨make_serializable_isJson v, serializeItems_isJson rest⟩
end

/-- Claim C9: the history-serialization step is total — `make_serializable`
maps every message of every history, including ones holding values with no
native JSON representation, to a value `json.dumps` accepts (so the
persistence write cannot fail on a serialization error), and on a message
whose `content` is such an unrepresentable value the serialized form keeps
`role` unchanged and carries `content` as the `str(...)` of the original;
reading the written JSON back therefore yields exactly these stringified
fields (`json.dump`/`json.load` round-tripping of accepted values is the
standard library's contract, taken as the collaborator interface). -/
theorem c9_serialization_total_roundtrip (history : List PyVal) (role rep : String) :
    (history.map make_serializable).all isJsonSerializable = true ∧
    pyLookup "role" (make_serializable (msgDict role (PyVal.blob rep))) =
      some (PyVal.str role) ∧
    pyLookup "content" (make_serializable (msgDict role (PyVal.blob rep))) =
      some (PyVal.str (pyStr (PyVal.blob rep))) := by
  refine ⟨?_, ?_, ?_⟩
  · rw [List.all_eq_true]
    intro v hv
    obtain ⟨w, _, rfl⟩ := List.mem_map.mp hv
    exact make_serializable_isJson w
  · rfl
  · rfl

/-! ## Tool dispatch (OpenAIAgent.run lines 109-142, OllamaAgent.run lines 47-73) -/

/-- Default message used with `List.getD` in index-wise statements. -/
def dfltMsg : Message := { role := "" }

/-- Default Ollama tool call used with `List.getD`. -/
def dfltOTC : OllamaToolCall := { name := "", arguments := [] }

namespace OpenAIAgent

theorem dispatchOne_role (callables : Registry) (tc : ToolCall) (args : Args) :
    (dispatchOne callables tc args).role = "tool" := by
  cases h : callables tc.name with
  | none => simp [dispatchOne, h, notFoundMsg]
  | some f => cases hf : f args <;> simp [dispatchOne, h, hf]

theorem dispatchOne_id (callables : Registry) (tc : ToolCall) (args : Args) :
    (dispatchOne callables tc args).tool_call_id = some tc.id := by
  cases h : callables tc.name with
  | none => simp [dispatchOne, h, notFoundMsg]
  | some f => cases hf : f args <;> simp [dispatchOne, h, hf]

/-- When every request's argument string parses, the dispatch loop raises
nothing, appends exactly one tool message per request, and each appended
message carries role `tool` and the id of its request. -/
theorem dispatchCalls_ok (callables : Registry) (parse : JsonParse) :
    ∀ reqs : List ToolCall,
      (∀ tc ∈ reqs, ∃ a, parse tc.arguments = Except.ok a) →
      (dispatchCalls callables parse reqs).2 = none ∧
      (dispatchCalls callables parse reqs).1.length = reqs.length ∧
      ∀ i, i < reqs.length →
        ((dispatchCalls callables parse reqs).1.getD i dfltMsg).role = "tool" ∧
        ((dispatchCalls callables parse reqs).1.getD i dfltMsg).tool_call_id =
          some ((reqs.getD i emptySlot).id)
  | [], _ => ⟨rfl, rfl, fun i hi => absurd hi (Nat.not_lt_zero i)⟩
  | tc :: rest, h => by
    obtain ⟨a, ha⟩ := h tc (List.mem_cons_self tc rest)
    have ih := dispatchCalls_ok callables parse rest
      (fun tc' h' => h tc' (List.mem_cons_of_mem tc h'))
    simp only [dispatchCalls, ha]
    refine ⟨ih.1, by simp [ih.2.1], ?_⟩
    intro i hi
    cases i with
    | zero => exact ⟨dispatchOne_role callables tc a, dispatchOne_id callables tc a⟩
    | succ j =>
      exact ih.2.2 j (Nat.lt_of_succ_lt_succ hi)

/-- Splitting the dispatch loop around a parsed prefix. -/
theorem dispatchCalls_append (callables : Registry) (parse : JsonParse) :
    ∀ (pre rest : List ToolCall),
      (∀ tc ∈ pre, ∃ a, parse tc.arguments = Except.ok a) →
      dispatchCalls callables parse (pre ++ rest) =
        ((dispatchCalls callables parse pre).1 ++ (dispatchCalls callables parse rest).1,
         (dispatchCalls callables parse rest).2)
  | [], rest, _ => by simp [dispatchCalls]
  | tc :: pre, rest, h => by
    obtain ⟨a, ha⟩ := h tc (List.mem_cons_self tc pre)
    have ih := dispatchCalls_append callables parse pre rest
      (fun tc' h' => h tc' (List.mem_cons_of_mem tc h'))
    simp [dispatchCalls, ha, ih]

/-- Every message the dispatch loop appends has role `tool`. -/
theorem dispatchCalls_roles (callables : Registry) (parse : JsonParse) :
    ∀ reqs : List ToolCall, ∀ m ∈ (dispatchCalls callables parse reqs).1, m.role = "tool"
  | [], m, hm => absurd hm (List.not_mem_nil m)
  | tc :: rest, m, hm => by
    revert hm
    simp only [dispatchCalls]
    cases parse tc.arguments with
    | error e => intro hm; exact absurd hm (List.not_mem_nil m)
    | ok a =>
      intro hm
      rcases List.mem_cons.mp hm with h | h
      · rw [h]; exact dispatchOne_role callables tc a
      · exact dispatchCalls_roles callables parse rest m h

end OpenAIAgent

namespace OllamaAgent

/-- The Ollama dispatch loop is total: exactly one tool message per
request, correlated by name, in request order. -/
theorem dispatchOllama_ok (callables : Registry) :
    ∀ oreqs : List OllamaToolCall,
      (dispatchOllama callables oreqs).length = oreqs.length ∧
      ∀ i, i < oreqs.length →
        ((dispatchOllama callables oreqs).getD i dfltMsg).role = "tool" ∧
        ((dispatchOllama callables oreqs).getD i dfltMsg).name =
          some ((oreqs.getD i dfltOTC).name)
  | [] => ⟨rfl, fun i hi => absurd hi (Nat.not_lt_zero i)⟩
  | tc :: rest => by
    have ih := dispatchOllama_ok callables rest
    refine ⟨by simp [dispatchOllama, ih.1], ?_⟩
    intro i hi
    cases i with
    | zero =>
      constructor
      · cases h : callables tc.name with
        | none => simp [dispatchOllama, h, ollamaNotFound]
        | some f => cases hf : f tc.arguments <;> simp [dispatchOllama, h, hf]
      · cases h : callables tc.name with
        | none => simp [dispatchOllama, h, ollamaNotFound]
        | some f => cases hf : f tc.arguments <;> simp [dispatchOllama, h, hf]
    | succ j =>
      exact ih.2 j (Nat.lt_of_succ_lt_succ hi)

/-- Every message the Ollama dispatch loop appends has role `tool`. -/
theorem dispatchOllama_roles (callables : Registry) :
    ∀ oreqs : List OllamaToolCall, ∀ m ∈ dispatchOllama callables oreqs, m.role = "tool"
  | [], m, hm => absurd hm (List.not_mem_nil m)
  | tc :: rest, m, hm => by
    revert hm
    simp only [dispatchOllama]
    intro hm
    rcases List.mem_cons.mp hm with h | h
    · rw [h]
      cases hc : callables tc.name with
      | none => simp [hc, ollamaNotFound]
      | some f => cases hf : f tc.arguments <;> simp [hc, hf]
    · exact dispatchOllama_roles callables rest m h

end OllamaAgent

/-! ## Concrete fixtures for counterexamples and witnesses -/

/-- A tool-call request whose argument text is not valid JSON. -/
def badCall : ToolCall := { id := "call_1", name := "read_file", arguments := "not json" }

/-- A request with valid (empty-object) argument text. -/
def goodCall : ToolCall := { id := "call_0", name := "read_file", arguments := "\x7b\x7d" }

/-- A request whose name is absent from the registry and whose argument
text is not valid JSON. -/
def missCall : ToolCall := { id := "call_9", name := "no_such_tool", arguments := "not json" }

/-- A `json.loads` model accepting exactly the empty-object text. -/
def cexParse : JsonParse := fun s =>
  if s = "\x7b\x7d" then Except.ok []
  else Except.error "Expecting value: line 1 column 1 (char 0)"

/-- A registry with the single tool `read_file`. -/
def cexRegistry : Registry := fun n =>
  if n = "read_file" then some (fun _ => ToolOutcome.ok (PyVal.str "data")) else none

/-- A reply that requests `badCall` only. -/
def cexReply : OpenAIAgent.Reply :=
  { role := "assistant", content := none, tool_calls := some [badCall] }

/-- A model collaborator that always answers with `cexReply`. -/
def cexModel : OpenAIAgent.ModelCall := fun _ => Except.ok cexReply

/-- A reply that requests `missCall` only. -/
def cexReplyMiss : OpenAIAgent.Reply :=
  { role := "assistant", content := none, tool_calls := some [missCall] }

/-- A model collaborator that always answers with `cexReplyMiss`. -/
def cexModelMiss : OpenAIAgent.ModelCall := fun _ => Except.ok cexReplyMiss

/-! ## Claims C1, C2, C5 -/

/-- Claim C1, counterexample: the claim states that an invalid-JSON
argument string yields a tool-response message and does not end the run.
On the code, `json.loads` (OpenAIAgent.py line 111) runs outside the
inner try/except, so with the single request `badCall` the run returns
the per-iteration handler's "API error" string on the parse exception,
and the final history contains no tool-role message at all. -/
theorem c1_counterexample :
    (OpenAIAgent.run cexModel cexRegistry cexParse 5 "hi" []).1 =
      "API error: Expecting value: line 1 column 1 (char 0)" ∧
    countRole "tool" (OpenAIAgent.run cexModel cexRegistry cexParse 5 "hi" []).2 = 0 ∧
    (OpenAIAgent.tcList cexReply).length = 1 := by
  refine ⟨rfl, rfl, rfl⟩

/-- Claim C1 (amended): if a reply's tool-call list is `pre ++ bad :: post`
where every request of `pre` has valid-JSON arguments and `bad` does not,
the dispatch loop raises at `bad`: the run terminates in that iteration
with the result `"API error: " ++ e` (the parse failure is NOT turned into
a tool-response message and the orchestration loop does NOT continue), and
the history receives the assistant message plus exactly one tool message
per request of `pre` — none for `bad` or for anything after it. -/
theorem c1_parse_failure_fatal (model : OpenAIAgent.ModelCall) (callables : Registry)
    (parse : JsonParse) (n : Nat) (prompt : String) (init : List Message)
    (r : OpenAIAgent.Reply) (pre : List ToolCall) (bad : ToolCall) (post : List ToolCall)
    (e : String)
    (hm : model (init ++ [{ role := "user", content := some prompt }]) = Except.ok r)
    (hcalls : OpenAIAgent.tcList r = pre ++ bad :: post)
    (hpre : ∀ tc ∈ pre, ∃ a, parse tc.arguments = Except.ok a)
    (hbad : parse bad.arguments = Except.error e) :
    OpenAIAgent.run model callables parse (n + 1) prompt init =
      ("API error: " ++ e,
       (init ++ [{ role := "user", content := some prompt }, OpenAIAgent.assistantMsg r]) ++
         (OpenAIAgent.dispatchCalls callables parse pre).1) ∧
    (OpenAIAgent.dispatchCalls callables parse pre).1.length = pre.length := by
  have hne : OpenAIAgent.tcList r ≠ [] := by
    rw [hcalls]; exact List.append_ne_nil_of_right_ne_nil pre (List.cons_ne_nil bad post)
  have hsplit := OpenAIAgent.dispatchCalls_append callables parse pre (bad :: post) hpre
  have hbadcons :
      OpenAIAgent.dispatchCalls callables parse (bad :: post) = ([], some e) := by
    simp [OpenAIAgent.dispatchCalls, hbad]
  have hok := OpenAIAgent.dispatchCalls_ok callables parse pre hpre
  have hdisp :
      OpenAIAgent.dispatchCalls callables parse (OpenAIAgent.tcList r) =
        ((OpenAIAgent.dispatchCalls callables parse pre).1, some e) := by
    rw [hcalls, hsplit, hbadcons]
    simp
  refine ⟨?_, hok.2.1⟩
  simp only [OpenAIAgent.run, OpenAIAgent.runIters, hm, if_neg hne, hdisp]
  simp [List.append_assoc]

/-- Claim C2, counterexample: the claim counts a parse failure among the
outcomes that append exactly one tool-response message per request; on the
code a reply with the single request `badCall` (N = 1) gets zero appended
tool messages, because the parse exception aborts the dispatch loop. -/
theorem c2_counterexample :
    (OpenAIAgent.dispatchCalls cexRegistry cexParse [badCall]).1.length = 0 ∧
    [badCall].length = 1 ∧
    (OpenAIAgent.dispatchCalls cexRegistry cexParse [badCall]).2.isSome = true := by
  refine ⟨rfl, rfl, rfl⟩

/-- Claim C2 (amended): for a finished assistant message whose N tool-call
requests all carry valid-JSON argument strings (outcomes not-found,
exception, success), dispatch appends exactly N tool-response messages,
one per request, in request order, each correlated to its request by
`tool_call_id`; in the Ollama dialect the arguments arrive already
structured, so the same holds unconditionally with correlation by `name`.
A request with an invalid argument string instead aborts the dispatch
loop with an "API error" result (see the counterexample and C1). -/
theorem c2_dispatch_correlation (callables : Registry) (parse : JsonParse)
    (reqs : List ToolCall) (oreqs : List OllamaToolCall)
    (h : ∀ tc ∈ reqs, ∃ a, parse tc.arguments = Except.ok a) :
    ((OpenAIAgent.dispatchCalls callables parse reqs).2 = none ∧
     (OpenAIAgent.dispatchCalls callables parse reqs).1.length = reqs.length ∧
     ∀ i, i < reqs.length →
       ((OpenAIAgent.dispatchCalls callables parse reqs).1.getD i dfltMsg).role = "tool" ∧
       ((OpenAIAgent.dispatchCalls callables parse reqs).1.getD i dfltMsg).tool_call_id =
         some ((reqs.getD i OpenAIAgent.emptySlot).id)) ∧
    ((OllamaAgent.dispatchOllama callables oreqs).length = oreqs.length ∧
     ∀ i, i < oreqs.length →
       ((OllamaAgent.dispatchOllama callables oreqs).getD i dfltMsg).role = "tool" ∧
       ((OllamaAgent.dispatchOllama callables oreqs).getD i dfltMsg).name =
         some ((oreqs.getD i dfltOTC).name)) :=
  ⟨OpenAIAgent.dispatchCalls_ok callables parse reqs h,
   OllamaAgent.dispatchOllama_ok callables oreqs⟩

/-- Witness for the amended C2, at the concrete requests
`[goodCall, missCall-with-valid-args]` and an Ollama request. -/
theorem c2_dispatch_correlation_witness :
    ((OpenAIAgent.dispatchCalls cexRegistry cexParse [goodCall]).2 = none ∧
     (OpenAIAgent.dispatchCalls cexRegistry cexParse [goodCall]).1.length =
       [goodCall].length ∧
     ∀ i, i < [goodCall].length →
       ((OpenAIAgent.dispatchCalls cexRegistry cexParse [goodCall]).1.getD i
           dfltMsg).role = "tool" ∧
       ((OpenAIAgent.dispatchCalls cexRegistry cexParse [goodCall]).1.getD i
           dfltMsg).tool_call_id =
         some (([goodCall].getD i OpenAIAgent.emptySlot).id)) ∧
    ((OllamaAgent.dispatchOllama cexRegistry [{ name := "x", arguments := [] }]).length =
       [({ name := "x", arguments := [] } : OllamaToolCall)].length ∧
     ∀ i, i < [({ name := "x", arguments := [] } : OllamaToolCall)].length →
       ((OllamaAgent.dispatchOllama cexRegistry
           [{ name := "x", arguments := [] }]).getD i dfltMsg).role = "tool" ∧
       ((OllamaAgent.dispatchOllama cexRegistry
           [{ name := "x", arguments := [] }]).getD i dfltMsg).name =
         some (([({ name := "x", arguments := [] } : OllamaToolCall)].getD i
             dfltOTC).name)) :=
  c2_dispatch_correlation cexRegistry cexParse [goodCall]
    [{ name := "x", arguments := [] }]
    (by
      intro tc htc
      rw [List.mem_singleton.mp htc]
      exact ⟨[], rfl⟩)

/-- Claim C5, counterexample: the claim states that dispatching a request
whose name is absent from the registry never terminates the orchestration
loop and always appends a not-found tool-response message.  On the code
the argument string is parsed before the registry lookup, so the absent
request `missCall` with invalid-JSON arguments ends the run with an
"API error" result and appends no tool-role message. -/
theorem c5_counterexample :
    (cexRegistry missCall.name).isNone = true ∧
    (OpenAIAgent.run cexModelMiss cexRegistry cexParse 3 "q" []).1 =
      "API error: Expecting value: line 1 column 1 (char 0)" ∧
    countRole "tool" (OpenAIAgent.run cexModelMiss cexRegistry cexParse 3 "q" []).2 = 0 := by
  refine ⟨rfl, rfl, rfl⟩

/-- Claim C5 (amended): dispatching a request whose name is absent from
the registry AND whose argument string is valid JSON appends a
tool-response message whose content states the tool was not found,
including the tool name, and dispatch proceeds to the next request (the
loop is untouched: the second component of the dispatch result is whatever
the remaining requests produce); in the Ollama dialect there is no parse
step, so the same holds unconditionally.  Nothing is raised to the
orchestration caller in either dialect. -/
theorem c5_notfound_nonfatal (callables : Registry) (parse : JsonParse)
    (tc : ToolCall) (rest : List ToolCall) (args : Args)
    (otc : OllamaToolCall) (orest : List OllamaToolCall)
    (hparse : parse tc.arguments = Except.ok args)
    (hmiss : (callables tc.name).isNone = true)
    (homiss : (callables otc.name).isNone = true) :
    OpenAIAgent.dispatchCalls callables parse (tc :: rest) =
      (OpenAIAgent.notFoundMsg tc :: (OpenAIAgent.dispatchCalls callables parse rest).1,
       (OpenAIAgent.dispatchCalls callables parse rest).2) ∧
    (OpenAIAgent.notFoundMsg tc).role = "tool" ∧
    (OpenAIAgent.notFoundMsg tc).content =
      some ("Error: Tool \x27" ++ tc.name ++ "\x27 not found.") ∧
    OllamaAgent.dispatchOllama callables (otc :: orest) =
      OllamaAgent.ollamaNotFound otc :: OllamaAgent.dispatchOllama callables orest ∧
    (OllamaAgent.ollamaNotFound otc).content =
      some ("Error: Tool \x27" ++ otc.name ++ "\x27 not found.") := by
  rw [Option.isNone_iff_eq_none] at hmiss homiss
  refine ⟨?_, rfl, rfl, ?_, rfl⟩
  · simp [OpenAIAgent.dispatchCalls, hparse, OpenAIAgent.dispatchOne, hmiss]
  · simp [OllamaAgent.dispatchOllama, homiss]

/-- Witness for the amended C5: a request for the unregistered
`no_such_tool` with valid argument text, in both dialects. -/
theorem c5_notfound_nonfatal_witness :
    OpenAIAgent.dispatchCalls cexRegistry cexParse
        [{ id := "call_9", name := "no_such_tool", arguments := "\x7b\x7d" }] =
      (OpenAIAgent.notFoundMsg
          { id := "call_9", name := "no_such_tool", arguments := "\x7b\x7d" } ::
        (OpenAIAgent.dispatchCalls cexRegistry cexParse []).1,
       (OpenAIAgent.dispatchCalls cexRegistry cexParse []).2) ∧
    (OpenAIAgent.notFoundMsg
        { id := "call_9", name := "no_such_tool", arguments := "\x7b\x7d" }).role =
      "tool" ∧
    (OpenAIAgent.notFoundMsg
        { id := "call_9", name := "no_such_tool", arguments := "\x7b\x7d" }).content =
      some ("Error: Tool \x27" ++ "no_such_tool" ++ "\x27 not found.") ∧
    OllamaAgent.dispatchOllama cexRegistry [{ name := "no_such_tool", arguments := [] }] =
      OllamaAgent.ollamaNotFound { name := "no_such_tool", arguments := [] } ::
        OllamaAgent.dispatchOllama cexRegistry [] ∧
    (OllamaAgent.ollamaNotFound { name := "no_such_tool", arguments := [] }).content =
      some ("Error: Tool \x27" ++ "no_such_tool" ++ "\x27 not found.") :=
  c5_notfound_nonfatal cexRegistry cexParse
    { id := "call_9", name := "no_such_tool", arguments := "\x7b\x7d" } [] []
    { name := "no_such_tool", arguments := [] } [] rfl rfl rfl

/-- Witness for the amended C1: the model requests `goodCall` then
`badCall`; the run ends with the parse failure's "API error" result and
history gains exactly one tool message (for `goodCall`). -/
theorem c1_parse_failure_fatal_witness :
    OpenAIAgent.run (fun _ => Except.ok
        { role := "assistant", content := none, tool_calls := some [goodCall, badCall] })
        cexRegistry cexParse 4 "hi" [] =
      ("API error: " ++ "Expecting value: line 1 column 1 (char 0)",
       ([] ++ [{ role := "user", content := some "hi" },
               OpenAIAgent.assistantMsg
                 { role := "assistant", content := none,
                   tool_calls := some [goodCall, badCall] }]) ++
         (OpenAIAgent.dispatchCalls cexRegistry cexParse [goodCall]).1) ∧
    (OpenAIAgent.dispatchCalls cexRegistry cexParse [goodCall]).1.length =
      [goodCall].length :=
  c1_parse_failure_fatal
    (fun _ => Except.ok
      { role := "assistant", content := none, tool_calls := some [goodCall, badCall] })
    cexRegistry cexParse 3 "hi" []
    { role := "assistant", content := none, tool_calls := some [goodCall, badCall] }
    [goodCall] badCall [] "Expecting value: line 1 column 1 (char 0)"
    rfl rfl
    (by
      intro tc htc
      rw [List.mem_singleton.mp htc]
      exact ⟨[], rfl⟩)
    rfl

/-! ## Claim C4: iteration bound -/

theorem countRole_append (r : String) (a b : List Message) :
    countRole r (a ++ b) = countRole r a + countRole r b := by
  simp [countRole, List.filter_append]

theorem countRole_singleton (r : String) (m : Message) :
    countRole r [m] = if m.role == r then 1 else 0 := by
  simp only [countRole, List.filter]
  cases h : m.role == r <;> simp [h]

theorem countRole_single_eq (r : String) (m : Message) (h : m.role = r) :
    countRole r [m] = 1 := by
  rw [countRole_singleton, h]
  simp

theorem countRole_single_ne (r : String) (m : Message) (h : ¬ m.role = r) :
    countRole r [m] = 0 := by
  rw [countRole_singleton]
  simp [h]

/-- Role counts of a block of tool messages. -/
theorem countRole_all_tool (msgs : List Message) (h : ∀ m ∈ msgs, m.role = "tool") :
    countRole "tool" msgs = msgs.length ∧ countRole "user" msgs = 0 ∧
    countRole "assistant" msgs = 0 := by
  induction msgs with
  | nil => exact ⟨rfl, rfl, rfl⟩
  | cons m rest ih =>
    have hm := h m (List.mem_cons_self m rest)
    have ih2 := ih (fun m' h' => h m' (List.mem_cons_of_mem m h'))
    have hcons : ∀ r : String, countRole r (m :: rest) = countRole r [m] + countRole r rest :=
      fun r => countRole_append r [m] rest
    rw [hcons "tool", hcons "user", hcons "assistant",
        countRole_single_eq "tool" m hm,
        countRole_single_ne "user" m (by rw [hm]; decide),
        countRole_single_ne "assistant" m (by rw [hm]; decide),
        ih2.1, ih2.2.1, ih2.2.2]
    refine ⟨by simp [Nat.add_comm], rfl, rfl⟩

namespace OpenAIAgent

/-- Against a model collaborator whose every reply is an assistant message
carrying at least one tool call with parseable arguments, the loop runs
all its remaining iterations, returns the sentinel, adds no user message,
and adds one assistant message and at least one tool message per
iteration. -/
theorem runIters_exhausts (model : ModelCall) (callables : Registry) (parse : JsonParse)
    (hm : ∀ hist, ∃ r, model hist = Except.ok r ∧ r.role = "assistant" ∧
          tcList r ≠ [] ∧ ∀ tc ∈ tcList r, ∃ a, parse tc.arguments = Except.ok a) :
    ∀ (n : Nat) (hist : List Message),
      (runIters model callables parse n hist).1 = sentinel ∧
      countRole "user" (runIters model callables parse n hist).2 =
        countRole "user" hist ∧
      countRole "assistant" (runIters model callables parse n hist).2 =
        countRole "assistant" hist + n ∧
      countRole "tool" hist + n ≤
        countRole "tool" (runIters model callables parse n hist).2 := by
  intro n
  induction n with
  | zero => intro hist; exact ⟨rfl, rfl, rfl, Nat.le_refl _⟩
  | succ n ih =>
    intro hist
    obtain ⟨r, hr, hrole, hne, hparse⟩ := hm hist
    have hok := dispatchCalls_ok callables parse (tcList r) hparse
    have hroles := dispatchCalls_roles callables parse (tcList r)
    have hpair : dispatchCalls callables parse (tcList r) =
        ((dispatchCalls callables parse (tcList r)).1, none) := by
      rw [← hok.1]
    have hstep : runIters model callables parse (n + 1) hist =
        runIters model callables parse n
          ((hist ++ [assistantMsg r]) ++ (dispatchCalls callables parse (tcList r)).1) := by
      rw [runIters, hr]
      simp only [if_neg hne]
      rw [hpair]
    have htool := countRole_all_tool (dispatchCalls callables parse (tcList r)).1 hroles
    have hlen : 1 ≤ (dispatchCalls callables parse (tcList r)).1.length := by
      rw [hok.2.1]
      exact List.length_pos.mpr hne
    have hamsg : (assistantMsg r).role = "assistant" := hrole ▸ rfl
    have ihs := ih ((hist ++ [assistantMsg r]) ++ (dispatchCalls callables parse (tcList r)).1)
    refine ⟨hstep ▸ ihs.1, ?_, ?_, ?_⟩
    · rw [hstep, ihs.2.1, countRole_append, countRole_append,
          countRole_single_ne "user" _ (by rw [hamsg]; decide), htool.2.1]
      omega
    · rw [hstep, ihs.2.2.1, countRole_append, countRole_append,
          countRole_single_eq "assistant" _ hamsg, htool.2.2]
      omega
    · rw [hstep]
      have h3 := ihs.2.2.2
      rw [countRole_append, countRole_append,
          countRole_single_ne "tool" _ (by rw [hamsg]; decide), htool.1] at h3
      omega

end OpenAIAgent

namespace OllamaAgent

/-- Ollama counterpart of `OpenAIAgent.runIters_exhausts`. -/
theorem runItersOllama_exhausts (model : OllamaModel) (callables : Registry)
    (hm : ∀ hist, ∃ r, model hist = some r ∧ r.role = "assistant" ∧ tcList r ≠ []) :
    ∀ (n : Nat) (hist : List Message),
      (runIters model callables n hist).1 = sentinel ∧
      countRole "user" (runIters model callables n hist).2 = countRole "user" hist ∧
      countRole "assistant" (runIters model callables n hist).2 =
        countRole "assistant" hist + n ∧
      countRole "tool" hist + n ≤ countRole "tool" (runIters model callables n hist).2 := by
  intro n
  induction n with
  | zero => intro hist; exact ⟨rfl, rfl, rfl, Nat.le_refl _⟩
  | succ n ih =>
    intro hist
    obtain ⟨r, hr, hrole, hne⟩ := hm hist
    have hemp : (tcList r).isEmpty = false := by
      cases h : tcList r with
      | nil => exact absurd h hne
      | cons a l => rfl
    have hstep : runIters model callables (n + 1) hist =
        runIters model callables n
          ((hist ++ [replyMsg r]) ++ dispatchOllama callables (tcList r)) := by
      rw [runIters, hr]
      simp only [hemp, Bool.false_eq_true, if_false]
    have hok := dispatchOllama_ok callables (tcList r)
    have htool := countRole_all_tool (dispatchOllama callables (tcList r))
      (dispatchOllama_roles callables (tcList r))
    have hlen : 1 ≤ (dispatchOllama callables (tcList r)).length := by
      rw [hok.1]
      exact List.length_pos.mpr hne
    have hamsg : (replyMsg r).role = "assistant" := hrole ▸ rfl
    have ihs := ih ((hist ++ [replyMsg r]) ++ dispatchOllama callables (tcList r))
    refine ⟨hstep ▸ ihs.1, ?_, ?_, ?_⟩
    · rw [hstep, ihs.2.1, countRole_append, countRole_append,
          countRole_single_ne "user" _ (by rw [hamsg]; decide), htool.2.1]
      omega
    · rw [hstep, ihs.2.2.1, countRole_append, countRole_append,
          countRole_single_eq "assistant" _ hamsg, htool.2.2]
      omega
    · rw [hstep]
      have h3 := ihs.2.2.2
      rw [countRole_append, countRole_append,
          countRole_single_ne "tool" _ (by rw [hamsg]; decide), htool.1] at h3
      omega

end OllamaAgent

/-- Claim C4: if every model reply carries tool calls (here: is an
assistant message with a non-empty tool-call list, with parseable
arguments in the OpenAI dialect), the loop never takes the terminal
no-tool-calls path; after exactly `max_iterations` loop bodies the run
returns the fixed sentinel string, and the final history holds the
initial messages plus exactly one new user message, exactly
`max_iterations` assistant messages, and at least `max_iterations` tool
messages — in both agent dialects. -/
theorem c4_iteration_bound (model : OpenAIAgent.ModelCall) (omodel : OllamaAgent.OllamaModel)
    (callables : Registry) (parse : JsonParse)
    (max_iterations : Nat) (prompt : String) (init : List Message)
    (hm : ∀ hist, ∃ r, model hist = Except.ok r ∧ r.role = "assistant" ∧
          OpenAIAgent.tcList r ≠ [] ∧
          ∀ tc ∈ OpenAIAgent.tcList r, ∃ a, parse tc.arguments = Except.ok a)
    (hom : ∀ hist, ∃ r, omodel hist = some r ∧ r.role = "assistant" ∧
          OllamaAgent.tcList r ≠ []) :
    ((OpenAIAgent.run model callables parse max_iterations prompt init).1 = sentinel ∧
     countRole "user" (OpenAIAgent.run model callables parse max_iterations prompt init).2 =
       countRole "user" init + 1 ∧
     countRole "assistant"
         (OpenAIAgent.run model callables parse max_iterations prompt init).2 =
       countRole "assistant" init + max_iterations ∧
     countRole "tool" init + max_iterations ≤
       countRole "tool" (OpenAIAgent.run model callables parse max_iterations prompt init).2) ∧
    ((OllamaAgent.run omodel callables max_iterations prompt init).1 = sentinel ∧
     countRole "user" (OllamaAgent.run omodel callables max_iterations prompt init).2 =
       countRole "user" init + 1 ∧
     countRole "assistant" (OllamaAgent.run omodel callables max_iterations prompt init).2 =
       countRole "assistant" init + max_iterations ∧
     countRole "tool" init + max_iterations ≤
       countRole "tool" (OllamaAgent.run omodel callables max_iterations prompt init).2) := by
  have huser : countRole "user"
      (init ++ [{ role := "user", content := some prompt }]) = countRole "user" init + 1 := by
    rw [countRole_append, countRole_singleton]; rfl
  have hasst : countRole "assistant"
      (init ++ [{ role := "user", content := some prompt }]) = countRole "assistant" init := by
    rw [countRole_append, countRole_singleton]; rfl
  have htool : countRole "tool"
      (init ++ [{ role := "user", content := some prompt }]) = countRole "tool" init := by
    rw [countRole_append, countRole_singleton]; rfl
  constructor
  · have h := OpenAIAgent.runIters_exhausts model callables parse hm max_iterations
      (init ++ [{ role := "user", content := some prompt }])
    rw [huser, hasst, htool] at h
    exact ⟨h.1, h.2.1, h.2.2.1, h.2.2.2⟩
  · have h := OllamaAgent.runItersOllama_exhausts omodel callables hom max_iterations
      (init ++ [{ role := "user", content := some prompt }])
    rw [huser, hasst, htool] at h
    exact ⟨h.1, h.2.1, h.2.2.1, h.2.2.2⟩

/-- A reply that always requests the existing `read_file` tool. -/
def c4Reply : OpenAIAgent.Reply :=
  { role := "assistant", content := none, tool_calls := some [goodCall] }

/-- A model collaborator that always answers with `c4Reply`. -/
def c4Model : OpenAIAgent.ModelCall := fun _ => Except.ok c4Reply

/-- The Ollama counterpart of `c4Reply`. -/
def c4OReply : OllamaAgent.OllamaReply :=
  { role := "assistant", content := "",
    tool_calls := some [{ name := "read_file", arguments := [] }] }

/-- A model collaborator that always answers with `c4OReply`. -/
def c4OModel : OllamaAgent.OllamaModel := fun _ => some c4OReply

/-- Witness for C4 at `max_iterations = 2` from an empty history. -/
theorem c4_iteration_bound_witness :
    ((OpenAIAgent.run c4Model cexRegistry cexParse 2 "go" []).1 = sentinel ∧
     countRole "user" (OpenAIAgent.run c4Model cexRegistry cexParse 2 "go" []).2 =
       countRole "user" [] + 1 ∧
     countRole "assistant" (OpenAIAgent.run c4Model cexRegistry cexParse 2 "go" []).2 =
       countRole "assistant" [] + 2 ∧
     countRole "tool" [] + 2 ≤
       countRole "tool" (OpenAIAgent.run c4Model cexRegistry cexParse 2 "go" []).2) ∧
    ((OllamaAgent.run c4OModel cexRegistry 2 "go" []).1 = sentinel ∧
     countRole "user" (OllamaAgent.run c4OModel cexRegistry 2 "go" []).2 =
       countRole "user" [] + 1 ∧
     countRole "assistant" (OllamaAgent.run c4OModel cexRegistry 2 "go" []).2 =
       countRole "assistant" [] + 2 ∧
     countRole "tool" [] + 2 ≤
       countRole "tool" (OllamaAgent.run c4OModel cexRegistry 2 "go" []).2) :=
  c4_iteration_bound c4Model c4OModel cexRegistry cexParse 2 "go" []
    (fun _ => ⟨c4Reply, rfl, rfl, by decide,
      by
        intro tc htc
        rw [List.mem_singleton.mp htc]
        exact ⟨[], rfl⟩⟩)
    (fun _ => ⟨c4OReply, rfl, rfl, List.cons_ne_nil _ _⟩)

/-! ## Claim C3: streaming accumulator index merge -/

theorem getD_replicate {α : Type} (k j : Nat) (d : α) :
    (List.replicate k d).getD j d = d := by
  induction k generalizing j with
  | zero => cases j <;> rfl
  | succ k ih =>
    cases j with
    | zero => rfl
    | succ j => exact ih j

theorem getD_append_replicate {α : Type} (l : List α) (k j : Nat) (d : α) :
    (l ++ List.replicate k d).getD j d = l.getD j d := by
  induction l generalizing j with
  | nil =>
    have h2 : ([] : List α).getD j d = d := by cases j <;> rfl
    rw [List.nil_append, getD_replicate, h2]
  | cons a l ih =>
    cases j with
    | zero => rfl
    | succ j => exact ih j

theorem getD_set_self {α : Type} (l : List α) (i : Nat) (a d : α) (h : i < l.length) :
    (l.set i a).getD i d = a := by
  induction l generalizing i with
  | nil => simp at h
  | cons b l ih =>
    cases i with
    | zero => rfl
    | succ i => exact ih i (Nat.lt_of_succ_lt_succ h)

theorem getD_set_ne {α : Type} (l : List α) (i j : Nat) (a d : α) (h : i ≠ j) :
    (l.set i a).getD j d = l.getD j d := by
  induction l generalizing i j with
  | nil => rfl
  | cons b l ih =>
    cases i with
    | zero =>
      cases j with
      | zero => exact absurd rfl h
      | succ j => rfl
    | succ i =>
      cases j with
      | zero => rfl
      | succ j => exact ih i j (fun he => h (by rw [he]))

namespace OpenAIAgent

theorem applyDelta_length (slots : List ToolCall) (d : ToolCallDelta) :
    (applyDelta slots d).length = max slots.length (d.index + 1) := by
  unfold applyDelta
  rw [List.length_set, List.length_append, List.length_replicate]
  omega

theorem applyDelta_getD (slots : List ToolCall) (d : ToolCallDelta) (j : Nat) :
    (applyDelta slots d).getD j emptySlot =
      if d.index = j then updSlot (slots.getD j emptySlot) d
      else slots.getD j emptySlot := by
  have hpadlen : d.index <
      (slots ++ List.replicate (d.index + 1 - slots.length) emptySlot).length := by
    rw [List.length_append, List.length_replicate]
    omega
  by_cases h : d.index = j
  · subst h
    rw [if_pos rfl]
    unfold applyDelta
    rw [getD_set_self _ _ _ _ hpadlen, getD_append_replicate]
  · rw [if_neg h]
    unfold applyDelta
    rw [getD_set_ne _ _ _ _ _ h, getD_append_replicate]

theorem foldl_applyDelta_getD :
    ∀ (frags : List ToolCallDelta) (init : List ToolCall) (j : Nat),
      (frags.foldl applyDelta init).getD j emptySlot =
        (fragsAt j frags).foldl updSlot (init.getD j emptySlot)
  | [], _, _ => rfl
  | f :: frags, init, j => by
    by_cases h : f.index = j
    · have hb : (f.index == j) = true := by simp [h]
      have hfr : fragsAt j (f :: frags) = f :: fragsAt j frags := by
        simp [fragsAt, List.filter_cons, hb]
      rw [List.foldl_cons, foldl_applyDelta_getD frags (applyDelta init f) j,
          applyDelta_getD, if_pos h, hfr, List.foldl_cons]
    · have hb : (f.index == j) = false := by simp [h]
      have hfr : fragsAt j (f :: frags) = fragsAt j frags := by
        simp [fragsAt, List.filter_cons, hb]
      rw [List.foldl_cons, foldl_applyDelta_getD frags (applyDelta init f) j,
          applyDelta_getD, if_neg h, hfr]

theorem foldl_applyDelta_length :
    ∀ (frags : List ToolCallDelta) (init : List ToolCall),
      (frags.foldl applyDelta init).length =
        frags.foldl (fun n f => max n (f.index + 1)) init.length
  | [], _ => rfl
  | f :: frags, init => by
    simp only [List.foldl_cons]
    rw [foldl_applyDelta_length frags (applyDelta init f), applyDelta_length]

theorem foldl_max_foldr :
    ∀ (frags : List ToolCallDelta) (a : Nat),
      frags.foldl (fun n f => max n (f.index + 1)) a =
        max a (frags.foldr (fun f m => max (f.index + 1) m) 0)
  | [], a => by simp
  | f :: frags, a => by
    simp only [List.foldl_cons, List.foldr_cons]
    rw [foldl_max_foldr frags (max a (f.index + 1))]
    omega

theorem foldr_maxIndex :
    ∀ frags : List ToolCallDelta, frags ≠ [] →
      frags.foldr (fun f m => max (f.index + 1) m) 0 = maxIndex frags + 1
  | [], h => absurd rfl h
  | [f], _ => by simp [maxIndex]
  | f :: g :: rest, _ => by
    have ih := foldr_maxIndex (g :: rest) (List.cons_ne_nil g rest)
    show max (f.index + 1) ((g :: rest).foldr (fun f m => max (f.index + 1) m) 0) =
      maxIndex (f :: g :: rest) + 1
    rw [ih]
    show max (f.index + 1) (maxIndex (g :: rest) + 1) =
      max f.index (maxIndex (g :: rest)) + 1
    omega

theorem foldl_updSlot_spec :
    ∀ (fs : List ToolCallDelta) (s : ToolCall),
      fs.foldl updSlot s =
        { id := lastNonEmptyD s.id (fs.map ToolCallDelta.id)
          name := lastNonEmptyD s.name (fs.map ToolCallDelta.name)
          arguments := s.arguments ++ strConcat (fs.map ToolCallDelta.arguments) }
  | [], s => by
    simp only [List.map_nil, lastNonEmptyD, List.foldl_nil, strConcat,
      String.append_empty]
  | f :: fs, s => by
    simp only [List.foldl_cons, List.map_cons]
    rw [foldl_updSlot_spec fs (updSlot s f)]
    show ({ id := lastNonEmptyD (if f.id = "" then s.id else f.id) (fs.map ToolCallDelta.id)
            name := lastNonEmptyD (if f.name = "" then s.name else f.name)
              (fs.map ToolCallDelta.name)
            arguments := (s.arguments ++ f.arguments) ++
              strConcat (fs.map ToolCallDelta.arguments) } : ToolCall) = _
    rw [String.append_assoc]
    rfl

theorem accumState_tool_calls :
    ∀ (chunks : List StreamChunk) (st : AccState),
      (chunks.foldl stepChunk st).tool_calls =
        (allFrags chunks).foldl applyDelta st.tool_calls
  | [], _ => rfl
  | c :: chunks, st => by
    simp only [List.foldl_cons]
    rw [accumState_tool_calls chunks (stepChunk st c)]
    show (allFrags chunks).foldl applyDelta (c.tool_calls.foldl applyDelta st.tool_calls) =
      (allFrags (c :: chunks)).foldl applyDelta st.tool_calls
    rw [show allFrags (c :: chunks) = c.tool_calls ++ allFrags chunks from rfl,
        List.foldl_append]

/-- Claim C3: for every delta stream with at least one tool-call fragment
— in particular ones whose indices arrive out of order or with gaps, such
as `{0,2,1}` — the finished message carries exactly `maxIndex + 1`
tool-call slots in index order, where the slot of every index `i` (a
placeholder with empty id/name/arguments when no fragment addressed `i`)
has id and name equal to the last non-empty fragment values for `i` and
arguments equal to the concatenation of the argument chunks for `i` in
arrival order. -/
theorem c3_accumulator_index_merge (chunks : List StreamChunk)
    (h : allFrags chunks ≠ []) :
    ∃ l, (accumMessage chunks).tool_calls = some l ∧
      l.length = maxIndex (allFrags chunks) + 1 ∧
      ∀ i : Nat, l.getD i emptySlot =
        { id := idAt i (allFrags chunks)
          name := nameAt i (allFrags chunks)
          arguments := argsAt i (allFrags chunks) } := by
  have hstate : (accumState chunks).tool_calls = (allFrags chunks).foldl applyDelta [] :=
    accumState_tool_calls chunks _
  have hlen : (accumState chunks).tool_calls.length = maxIndex (allFrags chunks) + 1 := by
    rw [hstate, foldl_applyDelta_length, foldl_max_foldr, foldr_maxIndex _ h]
    simp only [List.length_nil]
    omega
  have hget : ∀ i : Nat, (accumState chunks).tool_calls.getD i emptySlot =
      { id := idAt i (allFrags chunks)
        name := nameAt i (allFrags chunks)
        arguments := argsAt i (allFrags chunks) } := by
    intro i
    rw [hstate, foldl_applyDelta_getD]
    show (fragsAt i (allFrags chunks)).foldl updSlot emptySlot = _
    rw [foldl_updSlot_spec]
    rfl
  cases hL : (accumState chunks).tool_calls with
  | nil => rw [hL] at hlen; simp at hlen
  | cons tc tcs =>
    refine ⟨tc :: tcs, ?_, by rw [← hL]; exact hlen, by rw [← hL]; exact hget⟩
    show (match (accumState chunks).tool_calls with
      | [] => none
      | tc :: tcs => some (tc :: tcs)) = some (tc :: tcs)
    rw [hL]

end OpenAIAgent

/-- The spec's `{0,2,1}` example stream: indices out of order, with a gap,
and a second argument chunk for index 1. -/
def c3Chunks : List OpenAIAgent.StreamChunk :=
  [{ tool_calls := [{ index := 0, id := "a0", name := "t0", arguments := "ar" }] },
   { content := some "hello"
     tool_calls := [{ index := 2, id := "c2", name := "t2", arguments := "x" },
                    { index := 1, id := "b1", name := "t1", arguments := "y" }] },
   { tool_calls := [{ index := 1, arguments := "z" }] }]

/-- Witness for C3 at the `{0,2,1}` stream. -/
theorem c3_accumulator_index_merge_witness :
    OpenAIAgent.allFrags c3Chunks ≠ [] ∧
    ∃ l, (OpenAIAgent.accumMessage c3Chunks).tool_calls = some l ∧
      l.length = OpenAIAgent.maxIndex (OpenAIAgent.allFrags c3Chunks) + 1 ∧
      ∀ i : Nat, l.getD i OpenAIAgent.emptySlot =
        { id := OpenAIAgent.idAt i (OpenAIAgent.allFrags c3Chunks)
          name := OpenAIAgent.nameAt i (OpenAIAgent.allFrags c3Chunks)
          arguments := OpenAIAgent.argsAt i (OpenAIAgent.allFrags c3Chunks) } :=
  ⟨by decide, OpenAIAgent.c3_accumulator_index_merge c3Chunks (by decide)⟩

/-! ## Claims C6, C7, C8, C10: the process protocol client -/

namespace MCPClient

/-- Claim C6: complete characterization of the handshake's possible I/O
traces, for every server response behaviour.  Every trace starts with the
`initialize` request; nothing else is sent before exactly one response
line has been read for it; the `initialized` notification (which awaits
no response) and the `tools/list` request are sent, in that order, only
after the `initialize` response was read without an error field; after
`tools/list` at most one further response line is read.  In particular a
server that would answer `tools/list` before receiving `initialize` is
never queried out of order. -/
theorem c6_handshake_ordering (server_name : String) (resps : List RpcResp) :
    (handshake server_name resps).1 = [initReq] ∨
    (∃ r rest, resps = r :: rest ∧ r.error.isSome ∧
      (handshake server_name resps).1 = [initReq, Ev.recv r]) ∨
    (∃ r, resps = [r] ∧ r.error = none ∧
      (handshake server_name resps).1 =
        [initReq, Ev.recv r, initializedNotif, toolsListReq]) ∨
    (∃ r r2 rest, resps = r :: r2 :: rest ∧ r.error = none ∧
      (handshake server_name resps).1 =
        [initReq, Ev.recv r, initializedNotif, toolsListReq, Ev.recv r2]) := by
  cases resps with
  | nil => exact Or.inl rfl
  | cons r rest =>
    by_cases h : r.error.isSome
    · exact Or.inr (Or.inl ⟨r, rest, rfl, h, by simp [handshake, h]⟩)
    · have hnone : r.error = none := Option.not_isSome_iff_eq_none.mp h
      cases rest with
      | nil =>
        exact Or.inr (Or.inr (Or.inl ⟨r, rfl, hnone,
          by simp [handshake, h, getTools]⟩))
      | cons r2 rest2 =>
        exact Or.inr (Or.inr (Or.inr ⟨r, r2, rest2, rfl, hnone,
          by simp [handshake, h, getTools]⟩))

/-- Claim C7, counterexample: with a single configured server whose
`initialize` response carries an error field, the claim says
`start_server` reports failure and the server is marked not-started; on
the code `start_server` returns `True` and the server's process remains
in the running set (only the zero-tools part of the claim holds). -/
theorem c7_counterexample :
    (start_server { servers := ["srv"], processes := [], tools := [] } "srv" true
        [{ error := some "handshake failed" }]).1 = true ∧
    "srv" ∈ (start_server { servers := ["srv"], processes := [], tools := [] } "srv" true
        [{ error := some "handshake failed" }]).2.processes := by
  refine ⟨rfl, ?_⟩
  show "srv" ∈ ([] ++ ["srv"] : List String)
  simp

/-- Claim C7 (amended): if the `initialize` response carries an error
field, `_initialize_server` logs and swallows the failure, so
`start_server` still reports success and leaves the server's process in
the running set; however zero tools from that server are registered — the
catalogue is completely unchanged, so other servers' entries are
unaffected. -/
theorem c7_handshake_error_swallowed (st : ClientState) (server_name : String)
    (r : RpcResp) (rest : List RpcResp)
    (hin : server_name ∈ st.servers) (herr : r.error.isSome) :
    (start_server st server_name true (r :: rest)).1 = true ∧
    (start_server st server_name true (r :: rest)).2.tools = st.tools ∧
    (start_server st server_name true (r :: rest)).2.processes =
      st.processes ++ [server_name] := by
  simp [start_server, hin, handshake, herr]

/-- Witness for the amended C7. -/
theorem c7_handshake_error_swallowed_witness :
    (start_server { servers := ["srv"], processes := [], tools := [] } "srv" true
        [{ error := some "boom" }]).1 = true ∧
    (start_server { servers := ["srv"], processes := [], tools := [] } "srv" true
        [{ error := some "boom" }]).2.tools =
      ({ servers := ["srv"], processes := [], tools := [] } : ClientState).tools ∧
    (start_server { servers := ["srv"], processes := [], tools := [] } "srv" true
        [{ error := some "boom" }]).2.processes =
      ({ servers := ["srv"], processes := [], tools := [] } : ClientState).processes ++
        ["srv"] :=
  c7_handshake_error_swallowed { servers := ["srv"], processes := [], tools := [] }
    "srv" { error := some "boom" } [] (by decide) rfl

theorem requestIds_append (a b : List Ev) :
    requestIds (a ++ b) = requestIds a ++ requestIds b := by
  simp [requestIds, List.filterMap_append]

theorem callExchanges_ids :
    ∀ (n : Nat) (resps : List RpcResp),
      requestIds (callExchanges n resps) = List.replicate n 3
  | 0, _ => rfl
  | n + 1, resps => by
    cases resps with
    | nil =>
      show requestIds ([Ev.send (some 3) "tools/call"] ++ callExchanges n []) = _
      rw [requestIds_append, callExchanges_ids n []]
      rfl
    | cons r rest =>
      show requestIds ([Ev.send (some 3) "tools/call", Ev.recv r] ++
        callExchanges n rest) = _
      rw [requestIds_append, callExchanges_ids n rest]
      rfl

theorem chain_le_cons_replicate :
    ∀ (n : Nat) (a : Nat), a ≤ 3 →
      List.Chain' (fun x y => x ≤ y) (a :: List.replicate n 3)
  | 0, a, _ => List.chain'_singleton a
  | n + 1, a, h => by
    show List.Chain' (fun x y => x ≤ y) (a :: 3 :: List.replicate n 3)
    exact List.chain'_cons.mpr ⟨h, chain_le_cons_replicate n 3 (Nat.le_refl 3)⟩

theorem serialOk_callExchanges :
    ∀ (n : Nat) (resps : List RpcResp), n ≤ resps.length →
      serialOk false (callExchanges n resps) = true
  | 0, _, _ => rfl
  | n + 1, [], h => absurd h (by simp)
  | n + 1, r :: rest, h => by
    show serialOk false
      ([Ev.send (some 3) "tools/call", Ev.recv r] ++ callExchanges n rest) = true
    show serialOk false (callExchanges n rest) = true
    exact serialOk_callExchanges n rest (by simpa using Nat.le_of_succ_le_succ h)

/-- Claim C8: over a whole connection session — handshake followed by any
number of serialized `tools/call` exchanges — the ids of the requests
written to the connection form a monotone (non-decreasing) sequence
(`1, 2, 3, 3, ...`; the spec itself allows the repeated call id), and,
whenever the server supplies a response line for every read, the trace
alternates strictly one-in-one-out: each request's single response is
read off the connection before the next request is sent, with no
pipelining (the id-less `initialized` notification awaits no response). -/
theorem c8_ids_monotone_no_pipelining (server_name : String) (resps : List RpcResp)
    (ncalls : Nat) (h : ncalls + 2 ≤ resps.length) :
    List.Chain' (fun x y => x ≤ y) (requestIds (sessionTrace server_name resps ncalls)) ∧
    serialOk false (sessionTrace server_name resps ncalls) = true := by
  cases resps with
  | nil => simp at h
  | cons r1 rest =>
    cases rest with
    | nil => simp at h
    | cons r2 rest2 =>
      have hlen2 : ncalls ≤ rest2.length := by
        have := h
        simp only [List.length_cons] at this
        omega
      by_cases herr : r1.error.isSome
      · have htr : sessionTrace server_name (r1 :: r2 :: rest2) ncalls =
            [initReq, Ev.recv r1] ++ callExchanges ncalls (r2 :: rest2) := by
          simp [sessionTrace, handshake, handshakeRest, herr]
        constructor
        · rw [htr, requestIds_append, callExchanges_ids]
          exact chain_le_cons_replicate ncalls 1 (by omega)
        · rw [htr]
          show serialOk false (callExchanges ncalls (r2 :: rest2)) = true
          exact serialOk_callExchanges ncalls (r2 :: rest2) (by simp; omega)
      · have htr : sessionTrace server_name (r1 :: r2 :: rest2) ncalls =
            [initReq, Ev.recv r1, initializedNotif, toolsListReq, Ev.recv r2] ++
              callExchanges ncalls rest2 := by
          simp [sessionTrace, handshake, handshakeRest, herr, getTools]
        constructor
        · rw [htr, requestIds_append, callExchanges_ids]
          show List.Chain' (fun x y => x ≤ y) ((1 : Nat) :: 2 :: List.replicate ncalls 3)
          exact List.chain'_cons.mpr ⟨by omega, chain_le_cons_replicate ncalls 2 (by omega)⟩
        · rw [htr]
          show serialOk false (callExchanges ncalls rest2) = true
          exact serialOk_callExchanges ncalls rest2 hlen2

/-- Witness for C8: a server answering every line, with one tool call. -/
theorem c8_ids_monotone_no_pipelining_witness :
    List.Chain' (fun x y => x ≤ y)
      (requestIds (sessionTrace "srv" [{}, {}, {}] 1)) ∧
    serialOk false (sessionTrace "srv" [{}, {}, {}] 1) = true :=
  c8_ids_monotone_no_pipelining "srv" [{}, {}, {}] 1 (by decide)

/-- Claim C10: `call_tool` is total on the state model (every failure
path returns a string; nothing is raised to the caller), and its two
guard clauses act before any I/O: a tool name absent from the catalogue
returns exactly the fixed tool-not-found error string, naming the tool,
with an empty I/O trace, and a catalogued tool whose server is not in the
running process set returns exactly the server-not-running string, again without
writing anything to any process. -/
theorem c10_call_tool_guards (st : ClientState) (tool_name : String)
    (resps : List RpcResp) (info : ToolInfo) :
    (st.tools.lookup tool_name = none →
      call_tool st tool_name resps =
        ("Error: Tool \x27" ++ tool_name ++ "\x27 not found", [])) ∧
    (st.tools.lookup tool_name = some info → info.server ∉ st.processes →
      call_tool st tool_name resps =
        ("Error: Server \x27" ++ info.server ++ "\x27 not running", [])) := by
  constructor
  · intro h
    simp [call_tool, h]
  · intro h h2
    simp [call_tool, h, h2]

/-- Witness for C10: a catalogue with one tool of a stopped server. -/
theorem c10_call_tool_guards_witness :
    call_tool
        { servers := ["srv"], processes := [],
          tools := [("srv_t", { server := "srv", original_name := "t" })] }
        "nope" [] =
      ("Error: Tool \x27" ++ "nope" ++ "\x27 not found", []) ∧
    call_tool
        { servers := ["srv"], processes := [],
          tools := [("srv_t", { server := "srv", original_name := "t" })] }
        "srv_t" [] =
      ("Error: Server \x27" ++ "srv" ++ "\x27 not running", []) :=
  ⟨(c10_call_tool_guards
      { servers := ["srv"], processes := [],
        tools := [("srv_t", { server := "srv", original_name := "t" })] }
      "nope" [] { server := "srv", original_name := "t" }).1 (by decide),
   (c10_call_tool_guards
      { servers := ["srv"], processes := [],
        tools := [("srv_t", { server := "srv", original_name := "t" })] }
      "srv_t" [] { server := "srv", original_name := "t" }).2 (by decide) (by decide)⟩

end MCPClient

end LocalAgentToolkit
